import Mathlib

/-!
Verification of the WebSocket consumer / demultiplexer dispatch engine.

Shallow embedding of `channels/generic/websockets.py`: the base
`WebsocketConsumer` (send / group_send / raw_connect / raw_disconnect /
get_handler), the `JsonWebsocketConsumer` variant (`raw_receive`), and the
`WebsocketDemultiplexer` (`receive`, `encode`).

Python values decoded from JSON are modelled by the inductive type `Json`;
Python dicts become association lists with first-match lookup and
replace-first update (Python dicts have unique keys, so the two agree on
everything the code produces).  Side effects (channel sends, group
add/discard/send, user-level callbacks) are modelled as an explicit list of
`Effect` values; a Python `raise` becomes an `Except.error` carrying the
exception class and message, and an error result carries no effects —
faithful to the source, where every send statement sits on the success path.
-/

/-- A decoded JSON value (the result of `json.loads`).  Numbers are modelled
as integers; objects are association lists in insertion order. -/
inductive Json where
| null : Json
| bool (b : Bool) : Json
| num (n : Int) : Json
| str (s : String) : Json
| arr (items : List Json) : Json
| obj (fields : List (String × Json)) : Json

/-- Python `d[k]` / `k in d` on a dict modelled as an association list:
first matching key wins. -/
def jlookup (fields : List (String × Json)) (k : String) : Option Json :=
  match fields with
  | [] => none
  | (k', v) :: rest => if k' = k then some v else jlookup rest k

/-- Python `d[k] = v`: replace the value of an existing key in place,
append when the key is absent. -/
def jset (fields : List (String × Json)) (k : String) (v : Json) :
    List (String × Json) :=
  match fields with
  | [] => [(k, v)]
  | (k', v') :: rest =>
    if k' = k then (k, v) :: rest else (k', v') :: jset rest k v

/-- First-match lookup in a string-to-string dict (the demultiplexer's
`mapping`, or `method_mapping`). -/
def lookupStr (m : List (String × String)) (k : String) : Option String :=
  match m with
  | [] => none
  | (k', v) :: rest => if k' = k then some v else lookupStr rest k

/-- A raised Python exception: its class and its message.
`json.loads` raises `json.JSONDecodeError`; every `raise` statement in the
source raises `ValueError`; a missing dict key raises `KeyError`; a dict
membership test on an unhashable key raises `TypeError`. -/
inductive PyError where
| valueError (msg : String) : PyError
| keyError (msg : String) : PyError
| typeError (msg : String) : PyError
| jsonDecodeError (msg : String) : PyError

/-- An outbound WebSocket frame: the dict built by `send` / `group_send`.
`close = true` models the presence of the `"close": True` entry; `text` and
`bytes` are absent when `none`.  The code never puts any other key into the
frame dict. -/
structure Frame where
  close : Bool := false
  text : Option String := none
  bytes : Option (List Nat) := none

/-- One observable side effect of running a handler. -/
inductive Effect where
| groupAdd (group : String) (replyChannel : String) : Effect
| groupDiscard (group : String) (replyChannel : String) : Effect
| channelSend (channel : String) (payload : Json) : Effect
| replySend (replyChannel : String) (frame : Frame) : Effect
| groupFrameSend (group : String) (frame : Frame) : Effect
| userConnect : Effect
| userDisconnect : Effect
| userReceive (content : Json) : Effect
| readPath : Effect

/-- `WebsocketConsumer.send` (lines 90-103): build the frame dict —
`close` first, then `text`, `elif bytes`, else raise — and send it down this
connection's reply channel. -/
def wsSend (replyChannel : String) (text : Option String)
    (bytes : Option (List Nat)) (close : Bool) : Except PyError Effect :=
  let m : Frame := { close := close }
  match text with
  | some t => .ok (.replySend replyChannel { m with text := some t })
  | none =>
    match bytes with
    | some b => .ok (.replySend replyChannel { m with bytes := some b })
    | none => .error (.valueError "You must pass text or bytes")

/-- `WebsocketConsumer.group_send` (lines 105-116): identical frame
construction, sent to the named group instead of the reply channel. -/
def wsGroupSend (name : String) (text : Option String)
    (bytes : Option (List Nat)) (close : Bool) : Except PyError Effect :=
  let m : Frame := { close := close }
  match text with
  | some t => .ok (.groupFrameSend name { m with text := some t })
  | none =>
    match bytes with
    | some b => .ok (.groupFrameSend name { m with bytes := some b })
    | none => .error (.valueError "You must pass text or bytes")

/-- `WebsocketConsumer.close` (lines 118-122): a close-only frame on the
reply channel. -/
def wsClose (replyChannel : String) : Effect :=
  .replySend replyChannel { close := true }

/-- `WebsocketConsumer.raw_connect` (lines 59-66): add the reply channel to
every group returned by `connection_groups`, then call the user `connect`
callback. -/
def rawConnect (groups : List String) (replyChannel : String) : List Effect :=
  groups.map (fun g => .groupAdd g replyChannel) ++ [.userConnect]

/-- `WebsocketConsumer.raw_disconnect` (lines 124-131): discard the reply
channel from every group returned by `connection_groups`, then call the user
`disconnect` callback. -/
def rawDisconnect (groups : List String) (replyChannel : String) : List Effect :=
  groups.map (fun g => .groupDiscard g replyChannel) ++ [.userDisconnect]

/-- Python's `stream in self.mapping` where `stream` is an arbitrary decoded
value and the mapping's keys are strings.  Dict membership hashes the key:
an unhashable value — a JSON array or object, i.e. a Python list or dict —
raises `TypeError` before any comparison; a hashable non-string value
(`None`, a bool, a number) hashes fine but equals no string key; a string is
looked up. -/
def mappingLookup (mapping : List (String × String)) :
    Json → Except PyError (Option String)
  | .str s => .ok (lookupStr mapping s)
  | .arr _ => .error (.typeError "unhashable type: 'list'")
  | .obj _ => .error (.typeError "unhashable type: 'dict'")
  | _ => .ok none

/-- `WebsocketDemultiplexer.receive` (lines 189-205), with
`self.message['reply_channel']` passed in as `replyChannel`.  On success the
augmented payload is sent to the mapped channel; every failure raises
(`ValueError` from the explicit raise statements, `TypeError` from the
membership test on an unhashable stream) and sends nothing. -/
def demuxReceive (mapping : List (String × String)) (replyChannel : String)
    (content : Json) : Except PyError (List Effect) :=
  match content with
  | .obj fields =>
    if (jlookup fields "stream").isSome && (jlookup fields "payload").isSome then
      let stream := (jlookup fields "stream").getD .null
      match mappingLookup mapping stream with
      | .error e => .error e
      | .ok (some channel) =>
        let payload := (jlookup fields "payload").getD .null
        match payload with
        | .obj pfields =>
          .ok [.channelSend channel
            (.obj (jset pfields "reply_channel" (.str replyChannel)))]
        | _ => .error (.valueError "Multiplexed frame payload is not a dict")
      | .ok none =>
        .error (.valueError "Invalid multiplexed frame received (stream not mapped)")
    else
      .error (.valueError "Invalid multiplexed frame received (no channel/payload key)")
  | _ =>
    .error (.valueError "Invalid multiplexed frame received (no channel/payload key)")

/-- Does an effect list invoke the user-level plain `receive` callback? -/
def hasUserReceive (effects : List Effect) : Bool :=
  effects.any fun e =>
    match e with
    | .userReceive _ => true
    | _ => false

/-- The decoded content fails the demultiplexer's envelope check: it is not
an object carrying both a `stream` and a `payload` key. -/
def badEnvelope (content : Json) : Bool :=
  match content with
  | .obj fields =>
    !((jlookup fields "stream").isSome && (jlookup fields "payload").isSome)
  | _ => true

/-- Is this `Json` value an object (a Python dict)? -/
def isObj (v : Json) : Bool :=
  match v with
  | .obj _ => true
  | _ => false

/-- An effect that joins a group. -/
def isAdd : Effect → Bool
  | .groupAdd _ _ => true
  | _ => false

/-- An effect that leaves a group. -/
def isDiscard : Effect → Bool
  | .groupDiscard _ _ => true
  | _ => false

/-- The user `disconnect` callback effect. -/
def isUserDisconnect : Effect → Bool
  | .userDisconnect => true
  | _ => false

/-- Modelled from the spec: the strict Ordering Guard state.
`enforce_ordering` is imported from `channels.sessions`, whose source is not
among this repository's source files; the spec describes the strict mode as
"every inbound message for a connection carries a monotonically increasing
order token; the guard buffers a message if its token is not the next
expected value, releasing buffered messages once the gap is filled, and
never drops a message".  `nextToken` is the next expected token and
`buffer` holds the tokens of delayed messages. -/
structure OrderState where
  nextToken : Nat
  buffer : List Nat

/-- Modelled from the spec: release buffered messages while the next
expected token is among them.  Returns the tokens executed by the release,
the new expected token, and the remaining buffer; `fuel` bounds the number
of releases (each release removes one buffered token, so the buffer length
suffices). -/
def drainBuffer : Nat → Nat → List Nat → List Nat × Nat × List Nat
  | 0, next, buf => ([], next, buf)
  | fuel + 1, next, buf =>
    if next ∈ buf then
      let r := drainBuffer fuel (next + 1) (buf.erase next)
      (next :: r.1, r.2.1, r.2.2)
    else ([], next, buf)

/-- Modelled from the spec: deliver one message to the strict guard.  The
message executes immediately when its token is the expected one (followed by
any releasable buffered messages); otherwise it is buffered, never
dropped. -/
def deliverStrict (st : OrderState) (t : Nat) : OrderState × List Nat :=
  if t = st.nextToken then
    let r := drainBuffer st.buffer.length (t + 1) st.buffer
    (⟨r.2.1, r.2.2⟩, t :: r.1)
  else
    (⟨st.nextToken, t :: st.buffer⟩, [])

/-- Modelled from the spec: feed a delivery sequence of order tokens to the
strict guard (first expected token 1) and collect the effective execution
order of the handler. -/
def runStrict (tokens : List Nat) : List Nat :=
  (tokens.foldl
    (fun acc t =>
      let r := deliverStrict acc.1 t
      (r.1, acc.2 ++ r.2))
    ((⟨1, []⟩ : OrderState), ([] : List Nat))).2

/-- The three WebSocket event kinds. -/
inductive EventKind where
| connect : EventKind
| receive : EventKind
| disconnect : EventKind

/-- The channel name the transport delivers each event kind on. -/
def channelName : EventKind → String
  | .connect => "websocket.connect"
  | .receive => "websocket.receive"
  | .disconnect => "websocket.disconnect"

/-- `WebsocketConsumer.method_mapping` (lines 16-20). -/
def methodMapping : List (String × String) :=
  [("websocket.connect", "raw_connect"),
    ("websocket.receive", "raw_receive"),
    ("websocket.disconnect", "raw_disconnect")]

/-- One delivered transport event, modelled as the message dict: `path`,
`text` and `bytes` are `none` when the corresponding key is absent. -/
structure WsMessage where
  kind : EventKind
  path : Option String
  text : Option String
  bytes : Option (List Nat)
  replyChannel : String

/-- `WebsocketConsumer.get_handler` (lines 30-50): `self.path =
message['path']` runs first for EVERY message — the `.readPath` effect —
and raises `KeyError` when the message has no `path` key; then the
super-class handler is selected by the event's channel name through
`method_mapping` (`BaseConsumer.get_handler` is not among the source files;
modelled from the spec: "Dispatcher selects a handler by event kind").  On
success the stored `self.path` and the selected handler name are returned.
The optional `http_user` and ordering decorators wrap the selected handler
without touching `path`, so they are not modelled here; the strict ordering
decorator itself is modelled separately (`runStrict`). -/
def wsGetHandler (m : WsMessage) : List Effect × Except PyError (String × String) :=
  ([Effect.readPath],
    match m.path with
    | none => .error (.keyError "path")
    | some p =>
      match lookupStr methodMapping (channelName m.kind) with
      | some h => .ok (p, h)
      | none => .error (.keyError (channelName m.kind)))

/-- The opening-brace character, `Char.ofNat 123`. -/
def lbrace : Char := Char.ofNat 123

/-- The closing-brace character, `Char.ofNat 125`. -/
def rbrace : Char := Char.ofNat 125

/-- Model of the json library's string escaping (the JSON serializer is an
external collaborator; the spec assumes "JSON serialization correctness ...
a reliable library capability").  Quote, backslash and the common control
characters are escaped; other characters are emitted literally
(`ensure_ascii` hex escaping of the remaining code points is not
modelled). -/
def escChar (c : Char) : List Char :=
  if c = '"' then ['\\', '"']
  else if c = '\\' then ['\\', '\\']
  else if c = '\n' then ['\\', 'n']
  else if c = '\t' then ['\\', 't']
  else if c = '\r' then ['\\', 'r']
  else [c]

/-- Escape a whole string body. -/
def escapeChars : List Char → List Char
  | [] => []
  | c :: cs => escChar c ++ escapeChars cs

/-- Decimal rendering of a natural number, most significant digit first. -/
def renderNat (n : Nat) : List Char :=
  if n = 0 then ['0']
  else (Nat.digits 10 n).reverse.map fun d => Char.ofNat (48 + d)

/-- Decimal rendering of an integer. -/
def renderInt (i : Int) : List Char :=
  if i < 0 then '-' :: renderNat (-i).toNat else renderNat i.toNat

mutual
/-- Model of `json.dumps` over `Json` values, with the default separators
`", "` and `": "` the source relies on: serialize one value. -/
def render : Json → List Char
  | .num i => renderInt i
  | .str s => '"' :: (escapeChars s.data ++ ['"'])
  | .null => ['n', 'u', 'l', 'l']
  | .bool false => ['f', 'a', 'l', 's', 'e']
  | .bool true => ['t', 'r', 'u', 'e']
  | .arr [] => ['[', ']']
  | .arr (v :: vs) => '[' :: (renderItems v vs ++ [']'])
  | .obj [] => [lbrace, rbrace]
  | .obj (kv :: fs) => lbrace :: (renderFields kv fs ++ [rbrace])
termination_by v => sizeOf v
decreasing_by
  all_goals simp_wf
  all_goals omega

/-- Serialize an array's comma-separated items (non-empty item list). -/
def renderItems (v : Json) (vs : List Json) : List Char :=
  match vs with
  | [] => render v
  | w :: ws => render v ++ [',', ' '] ++ renderItems w ws
termination_by sizeOf v + sizeOf vs
decreasing_by
  all_goals simp_wf
  all_goals omega

/-- Serialize an object's comma-separated key/value pairs (non-empty). -/
def renderFields (kv : String × Json) (fs : List (String × Json)) : List Char :=
  match kv, fs with
  | (k, v), [] => '"' :: (escapeChars k.data ++ ['"', ':', ' '] ++ render v)
  | (k, v), kv' :: rest =>
    ('"' :: (escapeChars k.data ++ ['"', ':', ' '] ++ render v))
      ++ [',', ' '] ++ renderFields kv' rest
termination_by sizeOf kv + sizeOf fs
decreasing_by
  all_goals simp_wf
  all_goals omega
end

/-- Undo one escape: the character allowed after a backslash. -/
def unescChar (c : Char) : Option Char :=
  if c = '"' then some '"'
  else if c = '\\' then some '\\'
  else if c = 'n' then some '\n'
  else if c = 't' then some '\t'
  else if c = 'r' then some '\r'
  else none

/-- Parse a JSON string body (after the opening quote) up to and including
the closing quote; returns the unescaped content and the remaining
input. -/
def parseStrBody : List Char → Option (List Char × List Char)
  | [] => none
  | '"' :: cs => some ([], cs)
  | ['\\'] => none
  | '\\' :: e :: cs =>
    match unescChar e, parseStrBody cs with
    | some d, some (s, r) => some (d :: s, r)
    | _, _ => none
  | c :: cs =>
    match parseStrBody cs with
    | some (s, r) => some (c :: s, r)
    | none => none

/-- A decimal digit character. -/
def isDigitChar (c : Char) : Bool := 48 ≤ c.toNat && c.toNat ≤ 57

/-- Numeric value of a run of decimal digit characters (most significant
first). -/
def digitsVal (ds : List Char) : Nat :=
  ds.foldl (fun a c => 10 * a + (c.toNat - 48)) 0

/-- Parse the digit run of a number whose optional minus sign has already
been consumed. -/
def parseNumTail (neg : Bool) (cs : List Char) : Option (Json × List Char) :=
  let ds := cs.takeWhile isDigitChar
  if ds.isEmpty then none
  else
    some (.num (if neg then -(digitsVal ds : Int) else (digitsVal ds : Int)),
      cs.dropWhile isDigitChar)

/-- JSON insignificant whitespace. -/
def isWsChar (c : Char) : Bool := c = ' ' || c = '\n' || c = '\t' || c = '\r'

/-- Drop leading whitespace. -/
def skipWs : List Char → List Char
  | [] => []
  | c :: cs => if isWsChar c then skipWs cs else c :: cs

/-- Consume an expected literal character sequence. -/
def expectChars : List Char → List Char → Option (List Char)
  | [], cs => some cs
  | _ :: _, [] => none
  | p :: ps, c :: cs => if c = p then expectChars ps cs else none

mutual
/-- Model of `json.loads` over `Json` values: a recursive-descent JSON
reader.  `parseV` reads one value (after optional whitespace); `fuel`
bounds the recursion depth, and the top-level entry point supplies the
input length plus one. -/
def parseV : Nat → List Char → Option (Json × List Char)
  | 0, _ => none
  | fuel + 1, cs0 =>
    match skipWs cs0 with
    | [] => none
    | c :: cs =>
      if c = 'n' then
        match expectChars ['u', 'l', 'l'] cs with
        | some r => some (.null, r)
        | none => none
      else if c = 't' then
        match expectChars ['r', 'u', 'e'] cs with
        | some r => some (.bool true, r)
        | none => none
      else if c = 'f' then
        match expectChars ['a', 'l', 's', 'e'] cs with
        | some r => some (.bool false, r)
        | none => none
      else if c = '"' then
        match parseStrBody cs with
        | some (s, r) => some (.str (String.mk s), r)
        | none => none
      else if c = '[' then
        match skipWs cs with
        | d :: r =>
          if d = ']' then some (.arr [], r)
          else
            match parseItems fuel cs with
            | some (vs, r') => some (.arr vs, r')
            | none => none
        | [] => none
      else if c = lbrace then
        match skipWs cs with
        | d :: _ =>
          if d = rbrace then some (.obj [], (skipWs cs).tail)
          else
            match parseFields fuel cs with
            | some (fs, r') => some (.obj fs, r')
            | none => none
        | [] => none
      else if c = '-' then parseNumTail true cs
      else if isDigitChar c then parseNumTail false (c :: cs)
      else none

/-- Read the comma-separated items of a non-empty array, up to and
including the closing bracket. -/
def parseItems : Nat → List Char → Option (List Json × List Char)
  | 0, _ => none
  | fuel + 1, cs =>
    match parseV fuel cs with
    | some (v, r) =>
      match skipWs r with
      | d :: r' =>
        if d = ',' then
          match parseItems fuel r' with
          | some (vs, r2) => some (v :: vs, r2)
          | none => none
        else if d = ']' then some ([v], r')
        else none
      | [] => none
    | none => none

/-- Read the key/value pairs of a non-empty object, up to and including
the closing brace. -/
def parseFields : Nat → List Char → Option (List (String × Json) × List Char)
  | 0, _ => none
  | fuel + 1, cs =>
    match skipWs cs with
    | c :: cs' =>
      if c = '"' then
        match parseStrBody cs' with
        | some (k, r) =>
          match skipWs r with
          | d :: r' =>
            if d = ':' then
              match parseV fuel r' with
              | some (v, r2) =>
                match skipWs r2 with
                | e :: r3 =>
                  if e = ',' then
                    match parseFields fuel r3 with
                    | some (fs, r4) => some ((String.mk k, v) :: fs, r4)
                    | none => none
                  else if e = rbrace then some ([(String.mk k, v)], r3)
                  else none
                | [] => none
              | none => none
            else none
          | [] => none
        | none => none
      else none
    | [] => none
end

/-- Model of `json.dumps` at the `String` level. -/
def dumps (v : Json) : String := String.mk (render v)

/-- Model of `json.loads`: parse one value, allow trailing whitespace,
reject trailing garbage (`none` models the raised `json.JSONDecodeError`). -/
def loads (s : String) : Option Json :=
  match parseV (s.data.length + 1) s.data with
  | some (v, rest) => if skipWs rest = [] then some v else none
  | none => none

/-- `WebsocketDemultiplexer.encode` (lines 217-225): wrap
`{"stream": stream, "payload": payload}` as JSON text in a text-only frame.
(`DjangoJSONEncoder` additionally serializes host datetime-like values; the
`Json` value type covers the standard JSON values, so that extension has no
counterpart here.) -/
def encode (stream : String) (payload : Json) : Frame :=
  { text := some (dumps (.obj [("stream", .str stream), ("payload", payload)])) }

/-- `JsonWebsocketConsumer.raw_receive` (lines 147-151): decode the `text`
section as JSON and hand it to `receive`; raise `ValueError` when the frame
has no text section.  A frame whose text fails to parse raises
`json.JSONDecodeError` inside `json.loads`. -/
def jsonRawReceive (m : WsMessage) : Except PyError (List Effect) :=
  match m.text with
  | some t =>
    match loads t with
    | some content => .ok [.userReceive content]
    | none => .error (.jsonDecodeError "Expecting value")
  | none => .error (.valueError "No text section for incoming WebSocket frame!")

/-- Does a result carry a raised `json.JSONDecodeError`? -/
def isDecodeError (r : Except PyError (List Effect)) : Bool :=
  match r with
  | .error (.jsonDecodeError _) => true
  | _ => false

/-- The first character of the input, if any, does not satisfy `p`. -/
def headNot (p : Char → Bool) : List Char → Prop
  | [] => True
  | c :: _ => p c = false

/-- Looking up the key just written by `jset` returns the written value,
whatever the dict held before. -/
theorem jlookup_jset (fields : List (String × Json)) (k : String) (v : Json) :
    jlookup (jset fields k v) k = some v := by
  induction fields with
  | nil => simp [jset, jlookup]
  | cons kv rest ih =>
    obtain ⟨k', v'⟩ := kv
    by_cases h : k' = k
    · simp [jset, jlookup, h]
    · simp [jset, jlookup, h, ih]

/-- In `A ++ B`, when every element of `A` satisfies `p` and no element of
`B` does, an element found at position `i` satisfies `p` exactly when `i`
falls inside `A`. -/
theorem get?_pred_split {α : Type} {p : α → Prop} {A B : List α}
    (hA : ∀ x ∈ A, p x) (hB : ∀ x ∈ B, ¬ p x)
    {i : Nat} {e : α} (h : (A ++ B).get? i = some e) : p e ↔ i < A.length := by
  by_cases hi : i < A.length
  · rw [List.get?_append hi] at h
    exact iff_of_true (hA e (List.get?_mem h)) hi
  · rw [List.get?_append_right (Nat.le_of_not_lt hi)] at h
    exact iff_of_false (hB e (List.get?_mem h)) hi

/-- C1: with mapping `{"chat": "chat-queue"}`, receiving the decoded content
`{"stream": "chat", "payload": {"msg": "hi"}}` sends to channel
`chat-queue` exactly the payload `{"msg": "hi"}` augmented with the reserved
`reply_channel` key bound to this connection's reply channel, and invokes no
user-level plain `receive` callback. -/
theorem c1_demux_routes_chat :
    demuxReceive [("chat", "chat-queue")] "reply.c1"
        (Json.obj [("stream", Json.str "chat"),
          ("payload", Json.obj [("msg", Json.str "hi")])])
      = .ok [Effect.channelSend "chat-queue"
          (Json.obj [("msg", Json.str "hi"),
            ("reply_channel", Json.str "reply.c1")])]
    ∧ hasUserReceive [Effect.channelSend "chat-queue"
        (Json.obj [("msg", Json.str "hi"),
          ("reply_channel", Json.str "reply.c1")])] = false :=
  ⟨rfl, rfl⟩

/-- C2 counterexample: the stream value `[]` (a JSON array, a Python list)
is absent from the mapping `{"chat": "chat-queue"}`, yet receive does not
fail with `ValueError` (stream not mapped): the membership test
`stream in self.mapping` hashes the key and raises
`TypeError("unhashable type: 'list'")` first — so "every content whose
stream value is absent from the mapping fails with ValueError (stream not
mapped)" is false as stated. -/
theorem c2_counterexample :
    demuxReceive [("chat", "chat-queue")] "r"
        (Json.obj [("stream", Json.arr []), ("payload", Json.obj [])])
      = .error (.typeError "unhashable type: 'list'")
    ∧ demuxReceive [("chat", "chat-queue")] "r"
        (Json.obj [("stream", Json.arr []), ("payload", Json.obj [])])
      ≠ .error
        (.valueError "Invalid multiplexed frame received (stream not mapped)") :=
  ⟨rfl, by
    intro h
    have h2 : (Except.error (PyError.typeError "unhashable type: 'list'")
          : Except PyError (List Effect))
        = .error
          (.valueError "Invalid multiplexed frame received (stream not mapped)") :=
      h
    simp at h2⟩

/-- C2 amended: for a decoded content carrying both envelope keys, when the
`stream` value is hashable and absent from the static mapping (the
membership test returns no hit) receive fails with `ValueError` (stream not
mapped), whatever the `payload` value is; when the `stream` value is
unhashable (a JSON array or object) receive fails with the `TypeError`
raised by the membership test itself.  Either way the error result carries
no effects, so no destination send occurs. -/
theorem c2_unmapped_stream (mapping : List (String × String)) (rc : String)
    (fields : List (String × Json)) (sv pv : Json)
    (hs : jlookup fields "stream" = some sv)
    (hp : jlookup fields "payload" = some pv) :
    (mappingLookup mapping sv = .ok none →
      demuxReceive mapping rc (Json.obj fields)
        = .error
          (.valueError "Invalid multiplexed frame received (stream not mapped)"))
    ∧ (∀ e : PyError, mappingLookup mapping sv = .error e →
        demuxReceive mapping rc (Json.obj fields) = .error e) := by
  constructor
  · intro hm
    simp [demuxReceive, hs, hp, hm]
  · intro e hm
    simp [demuxReceive, hs, hp, hm]

/-- Witness for C2 amended: stream `"other"` with a perfectly valid payload
is rejected by the mapping `{"chat": "chat-queue"}`, and a dict-valued
stream hits the `TypeError` of the membership test. -/
theorem c2_unmapped_stream_witness :
    demuxReceive [("chat", "chat-queue")] "r"
        (Json.obj [("stream", Json.str "other"), ("payload", Json.obj [])])
      = .error (.valueError "Invalid multiplexed frame received (stream not mapped)")
    ∧ demuxReceive [("chat", "chat-queue")] "r"
        (Json.obj [("stream", Json.obj []), ("payload", Json.obj [])])
      = .error (.typeError "unhashable type: 'dict'") :=
  ⟨(c2_unmapped_stream [("chat", "chat-queue")] "r"
      [("stream", Json.str "other"), ("payload", Json.obj [])]
      (Json.str "other") (Json.obj []) rfl rfl).1 rfl,
    (c2_unmapped_stream [("chat", "chat-queue")] "r"
      [("stream", Json.obj []), ("payload", Json.obj [])]
      (Json.obj []) (Json.obj []) rfl rfl).2
      (.typeError "unhashable type: 'dict'") rfl⟩

/-- C3: a decoded content that is not an object with both a `stream` and a
`payload` key fails with `ValueError` (no channel/payload key); a content
with a whitelisted stream whose `payload` value is not an object fails with
`ValueError` (payload is not a dict).  Both error results carry no effects,
so no destination send occurs. -/
theorem c3_envelope_and_payload_shape (mapping : List (String × String))
    (rc : String) :
    (∀ content : Json, badEnvelope content = true →
      demuxReceive mapping rc content
        = .error (.valueError "Invalid multiplexed frame received (no channel/payload key)"))
    ∧ (∀ (fields : List (String × Json)) (sv : Json) (ch : String) (pv : Json),
        jlookup fields "stream" = some sv →
        mappingLookup mapping sv = .ok (some ch) →
        jlookup fields "payload" = some pv →
        isObj pv = false →
        demuxReceive mapping rc (Json.obj fields)
          = .error (.valueError "Multiplexed frame payload is not a dict")) := by
  constructor
  · intro content hbad
    cases content with
    | obj fields =>
      simp only [badEnvelope, Bool.not_eq_true'] at hbad
      simp [demuxReceive, hbad]
    | null => rfl
    | bool b => rfl
    | num n => rfl
    | str s => rfl
    | arr items => rfl
  · intro fields sv ch pv hs hm hp hno
    cases pv with
    | obj pfields => simp [isObj] at hno
    | null => simp [demuxReceive, hs, hp, hm]
    | bool b => simp [demuxReceive, hs, hp, hm]
    | num n => simp [demuxReceive, hs, hp, hm]
    | str s => simp [demuxReceive, hs, hp, hm]
    | arr items => simp [demuxReceive, hs, hp, hm]

/-- Witness for C3: `{"foo": "bar"}` hits the missing-keys error and
`{"stream": "chat", "payload": "hi"}` hits the payload-shape error. -/
theorem c3_witness :
    demuxReceive [("chat", "chat-queue")] "r" (Json.obj [("foo", Json.str "bar")])
      = .error (.valueError "Invalid multiplexed frame received (no channel/payload key)")
    ∧ demuxReceive [("chat", "chat-queue")] "r"
        (Json.obj [("stream", Json.str "chat"), ("payload", Json.str "hi")])
      = .error (.valueError "Multiplexed frame payload is not a dict") :=
  ⟨(c3_envelope_and_payload_shape [("chat", "chat-queue")] "r").1
      (Json.obj [("foo", Json.str "bar")]) rfl,
    (c3_envelope_and_payload_shape [("chat", "chat-queue")] "r").2
      [("stream", Json.str "chat"), ("payload", Json.str "hi")]
      (Json.str "chat") "chat-queue" (Json.str "hi") rfl rfl rfl rfl⟩

/-- C4 counterexample: calling `send` (or `group_send`) with BOTH text and
bytes set does not fail — `text` silently wins and `bytes` is dropped — so
"exactly one of text/bytes must be set, else ValueError" is false as stated:
only the neither-set case raises. -/
theorem c4_counterexample :
    wsSend "r" (some "a") (some [104, 105]) false
      = .ok (.replySend "r" { close := false, text := some "a", bytes := none })
    ∧ wsGroupSend "g" (some "a") (some [104, 105]) false
      = .ok (.groupFrameSend "g" { close := false, text := some "a", bytes := none }) :=
  ⟨rfl, rfl⟩

/-- C4 amended: `send` and `group_send` fail with `ValueError` exactly when
neither text nor bytes is set; when exactly one of them is set, the produced
frame contains only that field, plus `close` only when requested. -/
theorem c4_amended (rc name : String) (close : Bool) :
    (wsSend rc none none close = .error (.valueError "You must pass text or bytes")
      ∧ wsGroupSend name none none close
        = .error (.valueError "You must pass text or bytes"))
    ∧ (∀ t : String,
        wsSend rc (some t) none close
          = .ok (.replySend rc { close := close, text := some t, bytes := none })
        ∧ wsGroupSend name (some t) none close
          = .ok (.groupFrameSend name { close := close, text := some t, bytes := none }))
    ∧ (∀ b : List Nat,
        wsSend rc none (some b) close
          = .ok (.replySend rc { close := close, text := none, bytes := some b })
        ∧ wsGroupSend name none (some b) close
          = .ok (.groupFrameSend name { close := close, text := none, bytes := some b })) :=
  ⟨⟨rfl, rfl⟩, fun _ => ⟨rfl, rfl⟩, fun _ => ⟨rfl, rfl⟩⟩

/-- C10: every successfully routed frame reaches its destination with the
`reply_channel` key equal to this connection's reply channel — a
client-supplied `reply_channel` inside the payload is always overwritten. -/
theorem c10_reply_channel_overwritten (mapping : List (String × String))
    (rc : String) (fields pfields : List (String × Json)) (s ch : String)
    (hs : jlookup fields "stream" = some (Json.str s))
    (hm : lookupStr mapping s = some ch)
    (hp : jlookup fields "payload" = some (Json.obj pfields)) :
    demuxReceive mapping rc (Json.obj fields)
      = .ok [Effect.channelSend ch
          (Json.obj (jset pfields "reply_channel" (Json.str rc)))]
    ∧ jlookup (jset pfields "reply_channel" (Json.str rc)) "reply_channel"
      = some (Json.str rc) := by
  constructor
  · simp [demuxReceive, hs, hp, mappingLookup, hm]
  · exact jlookup_jset pfields "reply_channel" (Json.str rc)

/-- Witness for C10: a payload that already carries
`"reply_channel": "evil"` still reaches the destination with the server's
reply channel, never the client's value. -/
theorem c10_witness :
    demuxReceive [("chat", "chat-queue")] "server-reply"
        (Json.obj [("stream", Json.str "chat"),
          ("payload", Json.obj [("reply_channel", Json.str "evil"),
            ("msg", Json.str "hi")])])
      = .ok [Effect.channelSend "chat-queue"
          (Json.obj (jset [("reply_channel", Json.str "evil"),
            ("msg", Json.str "hi")] "reply_channel" (Json.str "server-reply")))]
    ∧ jlookup (jset [("reply_channel", Json.str "evil"), ("msg", Json.str "hi")]
        "reply_channel" (Json.str "server-reply")) "reply_channel"
      = some (Json.str "server-reply") :=
  c10_reply_channel_overwritten [("chat", "chat-queue")] "server-reply"
    [("stream", Json.str "chat"),
      ("payload", Json.obj [("reply_channel", Json.str "evil"),
        ("msg", Json.str "hi")])]
    [("reply_channel", Json.str "evil"), ("msg", Json.str "hi")]
    "chat" "chat-queue" rfl rfl rfl

/-- C7: for every list of connection groups, a connect event followed by a
disconnect event adds the reply channel to and then discards it from every
group, with every group join strictly before the user `connect` callback,
every group leave strictly before the user `disconnect` callback, and every
join strictly before every leave. -/
theorem c7_connect_then_disconnect (groups : List String) (rc : String) :
    (∀ g ∈ groups,
        Effect.groupAdd g rc ∈ rawConnect groups rc ++ rawDisconnect groups rc
        ∧ Effect.groupDiscard g rc ∈ rawConnect groups rc ++ rawDisconnect groups rc)
    ∧ (∀ (i j : Nat) (g r : String),
        (rawConnect groups rc ++ rawDisconnect groups rc).get? i
          = some (.groupAdd g r) →
        (rawConnect groups rc ++ rawDisconnect groups rc).get? j
          = some .userConnect →
        i < j)
    ∧ (∀ (i j : Nat) (g r : String),
        (rawConnect groups rc ++ rawDisconnect groups rc).get? i
          = some (.groupDiscard g r) →
        (rawConnect groups rc ++ rawDisconnect groups rc).get? j
          = some .userDisconnect →
        i < j)
    ∧ (∀ (i j : Nat) (g r g' r' : String),
        (rawConnect groups rc ++ rawDisconnect groups rc).get? i
          = some (.groupAdd g r) →
        (rawConnect groups rc ++ rawDisconnect groups rc).get? j
          = some (.groupDiscard g' r') →
        i < j) := by
  have htr : rawConnect groups rc ++ rawDisconnect groups rc
      = (groups.map fun g => Effect.groupAdd g rc)
        ++ (Effect.userConnect ::
          ((groups.map fun g => Effect.groupDiscard g rc)
            ++ [Effect.userDisconnect])) := by
    simp [rawConnect, rawDisconnect]
  have htr3 : rawConnect groups rc ++ rawDisconnect groups rc
      = ((groups.map fun g => Effect.groupAdd g rc)
          ++ Effect.userConnect :: (groups.map fun g => Effect.groupDiscard g rc))
        ++ [Effect.userDisconnect] := by
    simp [rawConnect, rawDisconnect]
  refine ⟨?_, ?_, ?_, ?_⟩
  · intro g hg
    constructor
    · rw [htr]
      exact List.mem_append_left _ (List.mem_map.mpr ⟨g, hg, rfl⟩)
    · rw [htr]
      refine List.mem_append_right _ (List.mem_cons_of_mem _ ?_)
      exact List.mem_append_left _ (List.mem_map.mpr ⟨g, hg, rfl⟩)
  · intro i j g r hi hj
    rw [htr] at hi hj
    have hA : ∀ x ∈ (groups.map fun g => Effect.groupAdd g rc),
        isAdd x = true := by
      intro x hx
      obtain ⟨g', _, rfl⟩ := List.mem_map.mp hx
      rfl
    have hB : ∀ x ∈ (Effect.userConnect ::
        ((groups.map fun g => Effect.groupDiscard g rc) ++ [Effect.userDisconnect])),
        ¬ isAdd x = true := by
      intro x hx
      simp only [List.mem_cons, List.mem_append, List.mem_map,
        List.mem_singleton, List.not_mem_nil, or_false] at hx
      rcases hx with rfl | ⟨g', _, rfl⟩ | rfl <;> simp [isAdd]
    have h1 := get?_pred_split hA hB hi
    have h2 := get?_pred_split hA hB hj
    have hi' := h1.mp rfl
    have hj' : ¬ j < (groups.map fun g => Effect.groupAdd g rc).length := by
      intro hlt
      simpa [isAdd] using h2.mpr hlt
    exact Nat.lt_of_lt_of_le hi' (Nat.le_of_not_lt hj')
  · intro i j g r hi hj
    rw [htr3] at hi hj
    have hA : ∀ x ∈ ((groups.map fun g => Effect.groupAdd g rc)
        ++ Effect.userConnect :: (groups.map fun g => Effect.groupDiscard g rc)),
        isUserDisconnect x = false := by
      intro x hx
      simp only [List.mem_append, List.mem_cons, List.mem_map] at hx
      rcases hx with ⟨g', _, rfl⟩ | rfl | ⟨g', _, rfl⟩ <;> rfl
    have hB : ∀ x ∈ [Effect.userDisconnect],
        ¬ isUserDisconnect x = false := by
      intro x hx
      simp only [List.mem_singleton] at hx
      subst hx
      simp [isUserDisconnect]
    have h1 := get?_pred_split hA hB hi
    have h2 := get?_pred_split hA hB hj
    have hi' := h1.mp rfl
    have hj' : ¬ j < ((groups.map fun g => Effect.groupAdd g rc)
        ++ Effect.userConnect :: (groups.map fun g => Effect.groupDiscard g rc)).length := by
      intro hlt
      simpa [isUserDisconnect] using h2.mpr hlt
    exact Nat.lt_of_lt_of_le hi' (Nat.le_of_not_lt hj')
  · intro i j g r g' r' hi hj
    have hA : ∀ x ∈ rawConnect groups rc,
        isAdd x = true ∨ x = Effect.userConnect := by
      intro x hx
      simp only [rawConnect, List.mem_append, List.mem_map, List.mem_cons,
        List.mem_singleton, List.not_mem_nil, or_false] at hx
      rcases hx with ⟨g'', _, rfl⟩ | rfl
      · exact Or.inl rfl
      · exact Or.inr rfl
    have hB : ∀ x ∈ rawDisconnect groups rc,
        ¬ (isAdd x = true ∨ x = Effect.userConnect) := by
      intro x hx
      simp only [rawDisconnect, List.mem_append, List.mem_map, List.mem_cons,
        List.mem_singleton, List.not_mem_nil, or_false] at hx
      rcases hx with ⟨g'', _, rfl⟩ | rfl <;> simp [isAdd]
    have h1 := get?_pred_split hA hB hi
    have h2 := get?_pred_split hA hB hj
    have hi' := h1.mp (Or.inl rfl)
    have hj' : ¬ j < (rawConnect groups rc).length := by
      intro hlt
      rcases h2.mpr hlt with h | h
      · simp [isAdd] at h
      · simp at h
    exact Nat.lt_of_lt_of_le hi' (Nat.le_of_not_lt hj')

/-- Witness for C7 at groups `["a", "b"]`: membership of join/leave for
group `"a"`, join at 0 before the connect callback at 2, leave at 3 before
the disconnect callback at 5, and the join of `"b"` at 1 before the leave of
`"a"` at 3. -/
theorem c7_witness :
    (Effect.groupAdd "a" "r" ∈ rawConnect ["a", "b"] "r" ++ rawDisconnect ["a", "b"] "r"
      ∧ Effect.groupDiscard "a" "r"
        ∈ rawConnect ["a", "b"] "r" ++ rawDisconnect ["a", "b"] "r")
    ∧ (0 : Nat) < 2 ∧ (3 : Nat) < 5 ∧ (1 : Nat) < 3 :=
  ⟨(c7_connect_then_disconnect ["a", "b"] "r").1 "a" (by simp),
    (c7_connect_then_disconnect ["a", "b"] "r").2.1 0 2 "a" "r" rfl rfl,
    (c7_connect_then_disconnect ["a", "b"] "r").2.2.1 3 5 "a" "r" rfl rfl,
    (c7_connect_then_disconnect ["a", "b"] "r").2.2.2 1 3 "b" "r" "a" "r" rfl rfl⟩

/-- C8: under the strict Ordering Guard, tokens delivered in order
`[1, 3, 2]` execute in order `[1, 2, 3]`; and any concurrent interleaving of
deliveries `[1, 2, 3]` (any permutation as the realized delivery order)
serializes handler execution in token order with no message dropped. -/
theorem c8_strict_ordering :
    runStrict [1, 3, 2] = [1, 2, 3]
    ∧ ∀ ds : List Nat, ds.Perm [1, 2, 3] → runStrict ds = [1, 2, 3] := by
  constructor
  · rfl
  · intro ds hperm
    have hlen : ds.length = 3 := hperm.length_eq
    rcases ds with _ | ⟨a, _ | ⟨b, _ | ⟨c, _ | ⟨d, tl⟩⟩⟩⟩
    · simp at hlen
    · simp at hlen
    · simp at hlen
    · have ha : a ∈ ([1, 2, 3] : List Nat) := hperm.mem_iff.mp (by simp)
      have hb : b ∈ ([1, 2, 3] : List Nat) := hperm.mem_iff.mp (by simp)
      have hc : c ∈ ([1, 2, 3] : List Nat) := hperm.mem_iff.mp (by simp)
      simp only [List.mem_cons, List.mem_singleton, List.not_mem_nil,
        or_false] at ha hb hc
      rcases ha with rfl | rfl | rfl <;> rcases hb with rfl | rfl | rfl <;>
        rcases hc with rfl | rfl | rfl <;>
        first
        | rfl
        | exact absurd hperm (by decide)
    · simp at hlen

/-- Witness for C8: the concrete delivery order `[2, 1, 3]` (one possible
concurrent interleaving) executes as `[1, 2, 3]`. -/
theorem c8_strict_ordering_witness : runStrict [2, 1, 3] = [1, 2, 3] :=
  c8_strict_ordering.2 [2, 1, 3] (by decide)

/-- C9 counterexample: handler selection for a `receive` event reads the
event's `path` — dispatching a receive message without a `path` key fails
with `KeyError("path")`, and the `.readPath` effect is recorded — so "reads
it only once, at connect (not on receive or disconnect)" is false. -/
theorem c9_counterexample :
    Effect.readPath
      ∈ (wsGetHandler ⟨.receive, none, some "x", none, "r"⟩).1
    ∧ (wsGetHandler ⟨.receive, none, some "x", none, "r"⟩).2
      = .error (.keyError "path")
    ∧ Effect.readPath
      ∈ (wsGetHandler ⟨.disconnect, none, none, none, "r"⟩).1 :=
  ⟨List.mem_singleton.mpr rfl, rfl, List.mem_singleton.mpr rfl⟩

/-- C9 amended: the core never modifies `path` — handler selection returns
the event's `path` value unchanged when present — but it reads `path` once
per event, at handler selection for EVERY event kind (connect, receive and
disconnect alike), failing with `KeyError` whenever the key is absent. -/
theorem c9_amended (m : WsMessage) :
    Effect.readPath ∈ (wsGetHandler m).1
    ∧ ((wsGetHandler m).2 = .error (.keyError "path") ↔ m.path = none)
    ∧ (∀ p : String, m.path = some p →
        ∃ h : String, (wsGetHandler m).2 = .ok (p, h)) := by
  refine ⟨List.mem_singleton.mpr rfl, ?_, ?_⟩
  · cases hm : m.path with
    | none => simp [wsGetHandler, hm]
    | some p =>
      cases m with
      | mk kind path text bytes rc =>
        cases kind <;>
          simp_all [wsGetHandler, methodMapping, channelName, lookupStr]
  · intro p hp
    cases m with
    | mk kind path text bytes rc =>
      cases kind
      · exact ⟨"raw_connect",
          by simp_all [wsGetHandler, methodMapping, channelName, lookupStr]⟩
      · exact ⟨"raw_receive",
          by simp_all [wsGetHandler, methodMapping, channelName, lookupStr]⟩
      · exact ⟨"raw_disconnect",
          by simp_all [wsGetHandler, methodMapping, channelName, lookupStr]⟩

/-- Witness for C9 amended: a connect event with path `"/chat"` records the
path read and returns the stored path with the `raw_connect` handler. -/
theorem c9_amended_witness :
    Effect.readPath ∈ (wsGetHandler ⟨.connect, some "/chat", none, none, "r"⟩).1
    ∧ ((wsGetHandler ⟨.connect, some "/chat", none, none, "r"⟩).2
        = .error (.keyError "path") ↔ (some "/chat" : Option String) = none)
    ∧ (∀ p : String, (some "/chat" : Option String) = some p →
        ∃ h : String,
          (wsGetHandler ⟨.connect, some "/chat", none, none, "r"⟩).2 = .ok (p, h)) :=
  c9_amended ⟨.connect, some "/chat", none, none, "r"⟩

/-- Consuming an expected sequence from its own prefix succeeds. -/
theorem expectChars_append (p rest : List Char) :
    expectChars p (p ++ rest) = some rest := by
  induction p with
  | nil => rfl
  | cons c cs ih => simp [expectChars, ih]

/-- Reading an escaped string body followed by the closing quote recovers
the original characters. -/
theorem parseStrBody_escape (s rest : List Char) :
    parseStrBody (escapeChars s ++ '"' :: rest) = some (s, rest) := by
  induction s with
  | nil => simp [escapeChars, parseStrBody]
  | cons c cs ih =>
    by_cases h1 : c = '"'
    · subst h1
      simp [escapeChars, escChar, parseStrBody, unescChar, ih]
    · by_cases h2 : c = '\\'
      · subst h2
        simp [escapeChars, escChar, parseStrBody, unescChar, ih]
      · by_cases h3 : c = '\n'
        · subst h3
          simp [escapeChars, escChar, parseStrBody, unescChar, ih]
        · by_cases h4 : c = '\t'
          · subst h4
            simp [escapeChars, escChar, parseStrBody, unescChar, ih]
          · by_cases h5 : c = '\r'
            · subst h5
              simp [escapeChars, escChar, parseStrBody, unescChar, ih]
            · simp [escapeChars, escChar, parseStrBody, h1, h2, h3, h4, h5, ih]

/-- The character of a decimal digit below 10 has the expected code. -/
theorem toNat_digit_char {d : Nat} (h : d < 10) :
    (Char.ofNat (48 + d)).toNat = 48 + d := by
  interval_cases d <;> decide

/-- Every character of `renderNat n` is a decimal digit. -/
theorem renderNat_digits (n : Nat) : ∀ c ∈ renderNat n, isDigitChar c = true := by
  intro c hc
  by_cases h : n = 0
  · subst h
    simp [renderNat] at hc
    subst hc
    decide
  · simp only [renderNat, h, if_false, List.mem_map, List.mem_reverse] at hc
    obtain ⟨d, hd, rfl⟩ := hc
    have hlt : d < 10 := Nat.digits_lt_base (by norm_num) hd
    simp [isDigitChar, toNat_digit_char hlt]
    omega

/-- `renderNat` never produces the empty digit run. -/
theorem renderNat_ne_nil (n : Nat) : renderNat n ≠ [] := by
  by_cases h : n = 0
  · subst h
    simp [renderNat]
  · simp only [renderNat, h, if_false, ne_eq, List.map_eq_nil_iff,
      List.reverse_eq_nil_iff]
    exact Nat.digits_ne_nil_iff_ne_zero.mpr h

/-- Big-endian digit evaluation agrees with `Nat.ofDigits` on the reversed
(little-endian) digit list. -/
theorem foldr_ofDigits (L : List Nat) :
    L.foldr (fun d a => 10 * a + d) 0 = Nat.ofDigits 10 L := by
  induction L with
  | nil => simp [Nat.ofDigits]
  | cons d L ih =>
    simp [Nat.ofDigits, ih]
    ring

/-- Parsing back the decimal rendering of `n` recovers `n`. -/
theorem digitsVal_renderNat (n : Nat) : digitsVal (renderNat n) = n := by
  by_cases h : n = 0
  · subst h
    rfl
  · rw [renderNat, if_neg h, digitsVal, List.foldl_map]
    have hext : ∀ (a : Nat), ∀ d ∈ (Nat.digits 10 n).reverse,
        10 * a + ((Char.ofNat (48 + d)).toNat - 48) = 10 * a + d := by
      intro a d hd
      have hlt : d < 10 := Nat.digits_lt_base (by norm_num) (List.mem_reverse.mp hd)
      rw [toNat_digit_char hlt]
      omega
    rw [List.foldl_ext _ (fun (a d : Nat) => 10 * a + d) 0 hext,
      List.foldl_reverse, foldr_ofDigits, Nat.ofDigits_digits]

/-- A decimal digit character is not whitespace. -/
theorem digit_not_ws {c : Char} (h : isDigitChar c = true) : isWsChar c = false := by
  by_contra hw
  have hw' : isWsChar c = true := by
    cases hb : isWsChar c
    · exact absurd hb hw
    · rfl
  simp only [isWsChar, Bool.or_eq_true, decide_eq_true_eq] at hw'
  rcases hw' with ((rfl | rfl) | rfl) | rfl <;> exact absurd h (by decide)

/-- A decimal digit character is none of the parser's structural
characters. -/
theorem digit_ne_special {c : Char} (h : isDigitChar c = true) :
    c ≠ ']' ∧ c ≠ 'n' ∧ c ≠ 't' ∧ c ≠ 'f' ∧ c ≠ '"' ∧ c ≠ '['
      ∧ c ≠ lbrace ∧ c ≠ '-' := by
  refine ⟨?_, ?_, ?_, ?_, ?_, ?_, ?_, ?_⟩ <;>
    (rintro rfl; exact absurd h (by decide))

/-- `skipWs` keeps a list whose head is not whitespace. -/
theorem skipWs_not_ws {c : Char} (cs : List Char) (h : isWsChar c = false) :
    skipWs (c :: cs) = c :: cs := by
  simp [skipWs, h]

/-- `skipWs` drops a whitespace head. -/
theorem skipWs_ws {c : Char} (cs : List Char) (h : isWsChar c = true) :
    skipWs (c :: cs) = skipWs cs := by
  simp [skipWs, h]

/-- `takeWhile`/`dropWhile` split an append exactly at the boundary when the
left part satisfies the predicate throughout and the right part does not
start with it. -/
theorem takeWhile_dropWhile_append {p : Char → Bool} (A B : List Char)
    (hA : ∀ c ∈ A, p c = true) (hB : headNot p B) :
    (A ++ B).takeWhile p = A ∧ (A ++ B).dropWhile p = B := by
  induction A with
  | nil =>
    cases B with
    | nil => simp
    | cons b bs =>
      simp only [headNot] at hB
      simp [List.takeWhile_cons, List.dropWhile_cons, hB]
  | cons a as ih =>
    have ha : p a = true := hA a (List.mem_cons_self a as)
    have ih' := ih fun c hc => hA c (List.mem_cons_of_mem a hc)
    simp [List.takeWhile_cons, List.dropWhile_cons, ha, ih'.1, ih'.2]

/-- Parsing the digit run of `renderNat n ++ rest` yields the number `n`
when `rest` does not start with a digit. -/
theorem parseNumTail_renderNat (neg : Bool) (n : Nat) (rest : List Char)
    (hrest : headNot isDigitChar rest) :
    parseNumTail neg (renderNat n ++ rest)
      = some (.num (if neg then -(n : Int) else (n : Int)), rest) := by
  obtain ⟨htake, hdrop⟩ :=
    takeWhile_dropWhile_append (renderNat n) rest (renderNat_digits n) hrest
  have hne : (renderNat n).isEmpty = false := by
    cases hr : renderNat n with
    | nil => exact absurd hr (renderNat_ne_nil n)
    | cons c cs => rfl
  simp [parseNumTail, htake, hdrop, hne, digitsVal_renderNat]

/-- Every rendered value starts with a character that is neither whitespace
nor a closing bracket. -/
theorem render_head (v : Json) : ∃ c t, render v = c :: t
    ∧ isWsChar c = false ∧ c ≠ ']' := by
  cases v with
  | null => exact ⟨'n', ['u', 'l', 'l'], by simp [render], by decide, by decide⟩
  | bool b =>
    cases b with
    | true => exact ⟨'t', ['r', 'u', 'e'], by simp [render], by decide, by decide⟩
    | false =>
      exact ⟨'f', ['a', 'l', 's', 'e'], by simp [render], by decide, by decide⟩
  | num i =>
    by_cases h : i < 0
    · exact ⟨'-', renderNat (-i).toNat, by simp [render, renderInt, h],
        by decide, by decide⟩
    · rcases hr : renderNat i.toNat with _ | ⟨c, t⟩
      · exact absurd hr (renderNat_ne_nil _)
      · have hc : isDigitChar c = true :=
          renderNat_digits _ c (by rw [hr]; exact List.mem_cons_self c t)
        exact ⟨c, t, by simp [render, renderInt, h, hr], digit_not_ws hc,
          (digit_ne_special hc).1⟩
  | str s =>
    exact ⟨'"', escapeChars s.data ++ ['"'], by simp [render], by decide,
      by decide⟩
  | arr items =>
    cases items with
    | nil => exact ⟨'[', [']'], by simp [render], by decide, by decide⟩
    | cons v vs =>
      exact ⟨'[', renderItems v vs ++ [']'], by simp [render], by decide,
        by decide⟩
  | obj fields =>
    cases fields with
    | nil => exact ⟨lbrace, [rbrace], by simp [render], by decide, by decide⟩
    | cons kv fs =>
      exact ⟨lbrace, renderFields kv fs ++ [rbrace], by simp [render],
        by decide, by decide⟩

/-- A leading whitespace character does not change `parseV`. -/
theorem parseV_ws (fuel : Nat) {c : Char} (cs : List Char)
    (h : isWsChar c = true) : parseV fuel (c :: cs) = parseV fuel cs := by
  cases fuel with
  | zero => rfl
  | succ f =>
    show (match skipWs (c :: cs) with
      | [] => none
      | c :: cs => _) = _
    rw [skipWs_ws cs h]
    rfl

/-- A leading whitespace character does not change `parseItems`. -/
theorem parseItems_ws (fuel : Nat) {c : Char} (cs : List Char)
    (h : isWsChar c = true) : parseItems fuel (c :: cs) = parseItems fuel cs := by
  cases fuel with
  | zero => rfl
  | succ f =>
    show (match parseV f (c :: cs) with
      | some (v, r) => _
      | none => none) = _
    rw [parseV_ws f cs h]
    rfl

/-- A leading whitespace character does not change `parseFields`. -/
theorem parseFields_ws (fuel : Nat) {c : Char} (cs : List Char)
    (h : isWsChar c = true) : parseFields fuel (c :: cs) = parseFields fuel cs := by
  cases fuel with
  | zero => rfl
  | succ f =>
    show (match skipWs (c :: cs) with
      | c :: cs' => _
      | [] => none) = _
    rw [skipWs_ws cs h]
    rfl

/-- `parseV` on input starting with `n` expects the `null` literal. -/
theorem parseV_n (f : Nat) (cs : List Char) :
    parseV (f + 1) ('n' :: cs)
      = match expectChars ['u', 'l', 'l'] cs with
        | some r => some (.null, r)
        | none => none := by
  rw [parseV, skipWs_not_ws cs (by decide)]
  rfl

/-- `parseV` on input starting with `t` expects the `true` literal. -/
theorem parseV_t (f : Nat) (cs : List Char) :
    parseV (f + 1) ('t' :: cs)
      = match expectChars ['r', 'u', 'e'] cs with
        | some r => some (.bool true, r)
        | none => none := by
  rw [parseV, skipWs_not_ws cs (by decide)]
  rfl

/-- `parseV` on input starting with `f` expects the `false` literal. -/
theorem parseV_false (f : Nat) (cs : List Char) :
    parseV (f + 1) ('f' :: cs)
      = match expectChars ['a', 'l', 's', 'e'] cs with
        | some r => some (.bool false, r)
        | none => none := by
  rw [parseV, skipWs_not_ws cs (by decide)]
  rfl

/-- `parseV` on input starting with a quote reads a string. -/
theorem parseV_quote (f : Nat) (cs : List Char) :
    parseV (f + 1) ('"' :: cs)
      = match parseStrBody cs with
        | some (s, r) => some (.str (String.mk s), r)
        | none => none := by
  rw [parseV, skipWs_not_ws cs (by decide)]
  rfl

/-- `parseV` on input starting with a minus sign reads a negative number. -/
theorem parseV_dash (f : Nat) (cs : List Char) :
    parseV (f + 1) ('-' :: cs) = parseNumTail true cs := by
  rw [parseV, skipWs_not_ws cs (by decide)]
  rfl

/-- `parseV` on input starting with a digit reads a number. -/
theorem parseV_digit (f : Nat) {c : Char} (cs : List Char)
    (h : isDigitChar c = true) :
    parseV (f + 1) (c :: cs) = parseNumTail false (c :: cs) := by
  obtain ⟨h1, h2, h3, h4, h5, h6, h7, h8⟩ := digit_ne_special h
  rw [parseV, skipWs_not_ws cs (digit_not_ws h)]
  simp [h, h2, h3, h4, h5, h6, h7, h8]

/-- `parseV` on input starting with an opening bracket reads an array. -/
theorem parseV_lbracket (f : Nat) (cs : List Char) :
    parseV (f + 1) ('[' :: cs)
      = match skipWs cs with
        | d :: r =>
          if d = ']' then some (.arr [], r)
          else
            match parseItems f cs with
            | some (vs, r') => some (.arr vs, r')
            | none => none
        | [] => none := by
  rw [parseV, skipWs_not_ws cs (by decide)]
  rfl

/-- `parseV` on input starting with an opening brace reads an object. -/
theorem parseV_lbrace (f : Nat) (cs : List Char) :
    parseV (f + 1) (lbrace :: cs)
      = match skipWs cs with
        | d :: _ =>
          if d = rbrace then some (.obj [], (skipWs cs).tail)
          else
            match parseFields f cs with
            | some (fs, r') => some (.obj fs, r')
            | none => none
        | [] => none := by
  rw [parseV, skipWs_not_ws cs (by decide)]
  rfl

/-- `parseFields` on input starting with a quote reads a key, a colon, a
value, and a separator deciding whether to continue. -/
theorem parseFields_quote (f : Nat) (cs : List Char) :
    parseFields (f + 1) ('"' :: cs)
      = match parseStrBody cs with
        | some (k, r) =>
          (match skipWs r with
           | d :: r' =>
             if d = ':' then
               match parseV f r' with
               | some (v, r2) =>
                 (match skipWs r2 with
                  | e :: r3 =>
                    if e = ',' then
                      match parseFields f r3 with
                      | some (fs, r4) => some ((String.mk k, v) :: fs, r4)
                      | none => none
                    else if e = rbrace then some ([(String.mk k, v)], r3)
                    else none
                  | [] => none)
               | none => none
             else none
           | [] => none)
        | none => none := by
  rw [parseFields, skipWs_not_ws cs (by decide)]
  rfl

/-- The items rendering starts with the rendering of its first item. -/
theorem renderItems_split (v : Json) (vs : List Json) :
    ∃ t, renderItems v vs = render v ++ t := by
  cases vs with
  | nil => exact ⟨[], by simp [renderItems]⟩
  | cons w ws => exact ⟨[',', ' '] ++ renderItems w ws, by simp [renderItems]⟩

/-- The fields rendering starts with the opening quote of its first key. -/
theorem renderFields_head (kv : String × Json) (fs : List (String × Json)) :
    ∃ t, renderFields kv fs = '"' :: t := by
  obtain ⟨k, v⟩ := kv
  cases fs with
  | nil =>
    exact ⟨escapeChars k.data ++ (['"', ':', ' '] ++ render v),
      by simp [renderFields]⟩
  | cons kv' rest =>
    exact ⟨(escapeChars k.data ++ (['"', ':', ' '] ++ render v))
        ++ ([',', ' '] ++ renderFields kv' rest),
      by simp [renderFields]⟩

/-- A quote is not the closing brace. -/
theorem quote_ne_rbrace : ('"' : Char) ≠ rbrace := by decide

/-- The closing brace is not a comma. -/
theorem comma_ne : rbrace ≠ ',' := by decide

/-- Round trip of the parser against the serializer, by induction on fuel:
one fuel unit per opened container suffices, and the rendered length covers
that.  The `rest` continuation of a value must not start with a digit (a
digit would be absorbed into a preceding number literal); array item runs
and object field runs carry their closing bracket or brace. -/
theorem parse_render (fuel : Nat) :
    (∀ (v : Json) (rest : List Char), (render v).length ≤ fuel →
      headNot isDigitChar rest →
      parseV fuel (render v ++ rest) = some (v, rest))
    ∧ (∀ (v : Json) (vs : List Json) (rest : List Char),
        (renderItems v vs).length + 1 ≤ fuel →
        parseItems fuel (renderItems v vs ++ ']' :: rest) = some (v :: vs, rest))
    ∧ (∀ (kv : String × Json) (fs : List (String × Json)) (rest : List Char),
        (renderFields kv fs).length + 1 ≤ fuel →
        parseFields fuel (renderFields kv fs ++ rbrace :: rest)
          = some (kv :: fs, rest)) := by
  induction fuel with
  | zero =>
    refine ⟨fun v rest h _ => ?_, fun v vs rest h => ?_, fun kv fs rest h => ?_⟩
    · obtain ⟨c, t, hv, -, -⟩ := render_head v
      rw [hv] at h
      simp at h
    · omega
    · omega
  | succ f ih =>
    obtain ⟨ihV, ihI, ihF⟩ := ih
    refine ⟨?_, ?_, ?_⟩
    · intro v rest hlen hrest
      cases v with
      | null =>
        simp only [render]
        rw [List.cons_append, parseV_n, expectChars_append]
      | bool b =>
        cases b with
        | true =>
          simp only [render]
          rw [List.cons_append, parseV_t, expectChars_append]
        | false =>
          simp only [render]
          rw [List.cons_append, parseV_false, expectChars_append]
      | num i =>
        by_cases h : i < 0
        · simp only [render, renderInt, if_pos h]
          rw [List.cons_append, parseV_dash,
            parseNumTail_renderNat true _ rest hrest]
          simp [Int.toNat_of_nonneg (by omega : (0 : Int) ≤ -i)]
        · rcases hr : renderNat i.toNat with _ | ⟨c, t⟩
          · exact absurd hr (renderNat_ne_nil _)
          · have hc : isDigitChar c = true :=
              renderNat_digits _ c (by rw [hr]; exact List.mem_cons_self c t)
            simp only [render, renderInt, if_neg h]
            rw [hr, List.cons_append, parseV_digit f _ hc, ← List.cons_append,
              ← hr, parseNumTail_renderNat false _ rest hrest]
            simp [Int.toNat_of_nonneg (by omega : (0 : Int) ≤ i)]
      | str s =>
        simp only [render]
        rw [List.cons_append, List.append_assoc, List.singleton_append,
          parseV_quote, parseStrBody_escape]
      | arr items =>
        cases items with
        | nil =>
          simp only [render]
          rw [List.cons_append, parseV_lbracket, List.singleton_append,
            skipWs_not_ws rest (by decide)]
          rfl
        | cons v vs =>
          simp only [render]
          rw [List.cons_append, List.append_assoc, List.singleton_append,
            parseV_lbracket]
          obtain ⟨tl, hit⟩ := renderItems_split v vs
          obtain ⟨c0, t0, hv0, hws0, hnb0⟩ := render_head v
          have hshape : renderItems v vs ++ ']' :: rest
              = c0 :: (t0 ++ (tl ++ ']' :: rest)) := by
            rw [hit, hv0]
            simp [List.append_assoc]
          have hskip : skipWs (renderItems v vs ++ ']' :: rest)
              = c0 :: (t0 ++ (tl ++ ']' :: rest)) := by
            rw [hshape]
            exact skipWs_not_ws _ hws0
          rw [hskip]
          have hlen' : (renderItems v vs).length + 1 ≤ f := by
            have : (render (.arr (v :: vs))).length
                = (renderItems v vs).length + 2 := by
              simp [render]
            omega
          simp only [if_neg hnb0, ihI v vs rest hlen']
      | obj fields =>
        cases fields with
        | nil =>
          simp only [render]
          rw [List.cons_append, parseV_lbrace, List.singleton_append,
            skipWs_not_ws rest (by decide)]
          simp [rbrace]
        | cons kv fs =>
          simp only [render]
          rw [List.cons_append, List.append_assoc, List.singleton_append,
            parseV_lbrace]
          obtain ⟨tf, htf⟩ := renderFields_head kv fs
          have hshape : renderFields kv fs ++ rbrace :: rest
              = '"' :: (tf ++ rbrace :: rest) := by
            rw [htf]
            simp
          have hskip : skipWs (renderFields kv fs ++ rbrace :: rest)
              = '"' :: (tf ++ rbrace :: rest) := by
            rw [hshape]
            exact skipWs_not_ws _ (by decide)
          rw [hskip]
          have hlen' : (renderFields kv fs).length + 1 ≤ f := by
            have : (render (.obj (kv :: fs))).length
                = (renderFields kv fs).length + 2 := by
              simp [render]
            omega
          simp only [if_neg quote_ne_rbrace, ihF kv fs rest hlen']
    · intro v vs rest hlen
      cases vs with
      | nil =>
        simp only [renderItems] at hlen ⊢
        have h1 := ihV v (']' :: rest) (by omega)
          ((by decide : isDigitChar ']' = false))
        rw [parseItems]
        have h2 : skipWs (']' :: rest) = ']' :: rest :=
          skipWs_not_ws rest (by decide)
        simp only [h1, h2]
        rfl
      | cons w ws =>
        simp only [renderItems] at hlen ⊢
        have hb : (render v).length ≤ f ∧ (renderItems w ws).length + 1 ≤ f := by
          simp only [List.length_append, List.length_cons, List.length_nil]
            at hlen
          omega
        simp only [List.append_assoc, List.cons_append, List.nil_append]
        have h1 := ihV v (',' :: ' ' :: (renderItems w ws ++ ']' :: rest))
          hb.1 ((by decide : isDigitChar ',' = false))
        rw [parseItems]
        simp only [h1]
        have h2 : skipWs (',' :: ' ' :: (renderItems w ws ++ ']' :: rest))
            = ',' :: ' ' :: (renderItems w ws ++ ']' :: rest) :=
          skipWs_not_ws _ (by decide)
        simp only [h2]
        have h3 := parseItems_ws f (renderItems w ws ++ ']' :: rest)
          (by decide : isWsChar ' ' = true)
        have h4 := ihI w ws rest hb.2
        simp only [h3, h4]
        rfl
    · intro kv fs rest hlen
      obtain ⟨k, v⟩ := kv
      cases fs with
      | nil =>
        simp only [renderFields] at hlen ⊢
        have hb : (render v).length ≤ f := by
          simp only [List.length_append, List.length_cons, List.length_nil]
            at hlen
          omega
        simp only [List.append_assoc, List.cons_append, List.nil_append]
        rw [parseFields_quote]
        rw [parseStrBody_escape k.data
          (':' :: ' ' :: (render v ++ rbrace :: rest))]
        have h2 : skipWs (':' :: ' ' :: (render v ++ rbrace :: rest))
            = ':' :: ' ' :: (render v ++ rbrace :: rest) :=
          skipWs_not_ws _ (by decide)
        have h3 := parseV_ws f (render v ++ rbrace :: rest)
          (by decide : isWsChar ' ' = true)
        have h4 := ihV v (rbrace :: rest) hb
          ((by decide : isDigitChar rbrace = false))
        have h5 : skipWs (rbrace :: rest) = rbrace :: rest :=
          skipWs_not_ws rest (by decide)
        simp only [h2, h3, h4, h5]
        simp only [if_true, if_neg comma_ne]
      | cons kv' fs' =>
        simp only [renderFields] at hlen ⊢
        have hb : (render v).length ≤ f
            ∧ (renderFields kv' fs').length + 1 ≤ f := by
          simp only [List.length_append, List.length_cons, List.length_nil]
            at hlen
          omega
        simp only [List.append_assoc, List.cons_append, List.nil_append]
        rw [parseFields_quote]
        rw [parseStrBody_escape k.data
          (':' :: ' ' :: (render v ++ ',' :: ' '
            :: (renderFields kv' fs' ++ rbrace :: rest)))]
        have h2 : skipWs (':' :: ' ' :: (render v ++ ',' :: ' '
            :: (renderFields kv' fs' ++ rbrace :: rest)))
            = ':' :: ' ' :: (render v ++ ',' :: ' '
              :: (renderFields kv' fs' ++ rbrace :: rest)) :=
          skipWs_not_ws _ (by decide)
        have h3 := parseV_ws f (render v ++ ',' :: ' '
            :: (renderFields kv' fs' ++ rbrace :: rest))
          (by decide : isWsChar ' ' = true)
        have h4 := ihV v (',' :: ' '
            :: (renderFields kv' fs' ++ rbrace :: rest))
          hb.1 ((by decide : isDigitChar ',' = false))
        have h5 : skipWs (',' :: ' '
            :: (renderFields kv' fs' ++ rbrace :: rest))
            = ',' :: ' ' :: (renderFields kv' fs' ++ rbrace :: rest) :=
          skipWs_not_ws _ (by decide)
        have h6 := parseFields_ws f (renderFields kv' fs' ++ rbrace :: rest)
          (by decide : isWsChar ' ' = true)
        have h7 := ihF kv' fs' rest hb.2
        simp only [h2, h3, h4, h5, h6, h7]
        rfl

/-- `json.loads` inverts `json.dumps` on every `Json` value. -/
theorem loads_dumps (v : Json) : loads (dumps v) = some v := by
  have h := (parse_render ((render v).length + 1)).1 v [] (by omega) trivial
  rw [List.append_nil] at h
  show (match parseV ((render v).length + 1) (render v) with
    | some (v, rest) => if skipWs rest = [] then some v else none
    | none => none) = some v
  rw [h]
  rfl

/-- C5: for every stream name and every JSON-representable payload,
JSON-decoding the text produced by the demultiplexer's
`encode(stream, payload)` reproduces exactly the object
`{"stream": stream, "payload": payload}` (and the frame carries no bytes
section). -/
theorem c5_encode_roundtrip (stream : String) (payload : Json) :
    ∃ t : String, (encode stream payload).text = some t
      ∧ (encode stream payload).bytes = none
      ∧ loads t
        = some (Json.obj [("stream", Json.str stream), ("payload", payload)]) :=
  ⟨dumps (Json.obj [("stream", Json.str stream), ("payload", payload)]),
    rfl, rfl, loads_dumps _⟩

/-- C6 counterexample: a binary-only frame (no text section) makes the JSON
consumer's receive path fail with `ValueError("No text section for incoming
WebSocket frame!")` — the `ValueError` class, not a JSON `DecodeError` — so
"fails with DecodeError" is false as stated; the bytes are never passed
through JSON decode (the error is raised before any parse). -/
theorem c6_counterexample :
    jsonRawReceive ⟨.receive, some "/x", none, some [0, 1, 2], "r"⟩
      = .error (.valueError "No text section for incoming WebSocket frame!")
    ∧ isDecodeError
        (jsonRawReceive ⟨.receive, some "/x", none, some [0, 1, 2], "r"⟩)
      = false :=
  ⟨rfl, rfl⟩

/-- C6 amended: for every frame with no text section, the JSON consumer's
receive path fails with `ValueError` ("No text section for incoming
WebSocket frame!") — not a JSON decode error — and the binary data is never
passed through JSON decode, whatever the bytes section holds. -/
theorem c6_no_text_section (m : WsMessage) (h : m.text = none) :
    jsonRawReceive m
      = .error (.valueError "No text section for incoming WebSocket frame!")
    ∧ isDecodeError (jsonRawReceive m) = false := by
  constructor
  · simp [jsonRawReceive, h]
  · simp [jsonRawReceive, h, isDecodeError]

/-- Witness for C6 amended at a concrete binary-only frame. -/
theorem c6_no_text_section_witness :
    jsonRawReceive ⟨.disconnect, some "/y", none, some [7], "r"⟩
      = .error (.valueError "No text section for incoming WebSocket frame!")
    ∧ isDecodeError
        (jsonRawReceive ⟨.disconnect, some "/y", none, some [7], "r"⟩)
      = false :=
  c6_no_text_section ⟨.disconnect, some "/y", none, some [7], "r"⟩ rfl
